import Mathlib

/-!
Shallow embedding of the music-theory engine of `src/src/CircleOfFifths.tsx`
(the Circle-of-Fifths web app).  Strings are modelled with Lean `String`
(a list of characters); JavaScript's `undefined` results of out-of-range
indexing, and the `NaN` arising from a missing table entry, are modelled
explicitly where the source can produce them.  All definitions below are
direct translations of the TypeScript source; the line numbers in the
comments refer to `src/src/CircleOfFifths.tsx`.
-/

namespace CircleOfFifths

/-- Circle catalog entry (source line 18): major name, minor name, signed
accidental count (`acc > 0` sharps, `acc < 0` flats). -/
structure Pos where
  major : String
  minor : String
  acc : Int
deriving DecidableEq

/-- The fixed 12-entry circle catalog `POSITIONS` (source lines 20-33). -/
def POSITIONS : List Pos :=
  [ ⟨"C",       "a",       0⟩,
    ⟨"G",       "e",       1⟩,
    ⟨"D",       "b",       2⟩,
    ⟨"A",       "f#",      3⟩,
    ⟨"E",       "c#",      4⟩,
    ⟨"B",       "g#",      5⟩,
    ⟨"F# / Gb", "d# / eb", 6⟩,
    ⟨"Db / C#", "bb / a#", (-5)⟩,
    ⟨"Ab",      "f",       (-4)⟩,
    ⟨"Eb",      "c",       (-3)⟩,
    ⟨"Bb",      "g",       (-2)⟩,
    ⟨"F",       "d",       (-1)⟩ ]

/-- `ORDER_SHARPS` (source line 36). -/
def ORDER_SHARPS : List String := ["F", "C", "G", "D", "A", "E", "B"]

/-- `ORDER_FLATS` (source line 37). -/
def ORDER_FLATS : List String := ["B", "E", "A", "D", "G", "C", "F"]

/-- `NAT_PC` (source line 38): natural-letter pitch classes.  The source
indexes the record with the first character of a normalized token; a key
outside A-G yields JS `undefined` (propagating to `NaN`), modelled here
by `none`.  Written as an if-chain so the lookup can be case-split in
proofs. -/
def NAT_PC (c : Char) : Option Int :=
  if c = 'C' then some 0
  else if c = 'D' then some 2
  else if c = 'E' then some 4
  else if c = 'F' then some 5
  else if c = 'G' then some 7
  else if c = 'A' then some 9
  else if c = 'B' then some 11
  else none

/-- `MAJOR_SIG_COUNTS` (source lines 41-44): signed signature count per
major key name; `none` models a key absent from the record. -/
def MAJOR_SIG_COUNTS (k : String) : Option Int :=
  if k = "C" then some 0
  else if k = "G" then some 1
  else if k = "D" then some 2
  else if k = "A" then some 3
  else if k = "E" then some 4
  else if k = "B" then some 5
  else if k = "F#" then some 6
  else if k = "C#" then some 7
  else if k = "F" then some (-1)
  else if k = "Bb" then some (-2)
  else if k = "Eb" then some (-3)
  else if k = "Ab" then some (-4)
  else if k = "Db" then some (-5)
  else if k = "Gb" then some (-6)
  else if k = "Cb" then some (-7)
  else none

/-- `MINOR_REL_MAJOR` (source lines 47-50): relative major per lowercase
minor name; `none` models a key absent from the record. -/
def MINOR_REL_MAJOR (k : String) : Option String :=
  if k = "a" then some "C"
  else if k = "e" then some "G"
  else if k = "b" then some "D"
  else if k = "f#" then some "A"
  else if k = "c#" then some "E"
  else if k = "g#" then some "B"
  else if k = "d#" then some "F#"
  else if k = "a#" then some "C#"
  else if k = "d" then some "F"
  else if k = "g" then some "Bb"
  else if k = "c" then some "Eb"
  else if k = "f" then some "Ab"
  else if k = "bb" then some "Db"
  else if k = "eb" then some "Gb"
  else if k = "ab" then some "Cb"
  else none

/-- One step of `asciiNote` (source lines 53-55).  Every pattern of the
four regex replacements is a single character, so the sequential global
replacements amount to this character-wise expansion. -/
def asciiChar (c : Char) : List Char :=
  if c = '♯' then ['#']
  else if c = '𝄪' then ['#', '#']
  else if c = '♭' then ['b']
  else if c = '𝄫' then ['b', 'b']
  else [c]

/-- Character-list form of `asciiNote` (source lines 53-55). -/
def asciiList : List Char → List Char
  | [] => []
  | c :: cs => asciiChar c ++ asciiList cs

/-- `asciiNote` (source lines 53-55). -/
def asciiNote (n : String) : String := ⟨asciiList n.data⟩

/-- JS `String.prototype.trim` on a character list. -/
def trimChars (l : List Char) : List Char :=
  ((l.dropWhile Char.isWhitespace).reverse.dropWhile Char.isWhitespace).reverse

/-- JS `t.split("/")[0]`: the characters before the first slash. -/
def firstSlashPart (l : List Char) : List Char :=
  l.takeWhile (fun c => c != '/')

/-- JS `raw.split("/")[1]`: the characters between the first and second
slash (used only when a slash is present). -/
def secondSlashPart (l : List Char) : List Char :=
  ((l.dropWhile (fun c => c != '/')).drop 1).takeWhile (fun c => c != '/')

/-- `normalizeToken` (source lines 56-63): default "C" on the empty
string, strip the slash-alternate, uppercase the first character, keep
only `#`/`b` marks from the remainder. -/
def normalizeToken (n : String) : String :=
  if n = "" then "C"
  else
    let t := trimChars (firstSlashPart (asciiList n.data))
    match t with
    | [] => "C"
    | c :: rest => ⟨c.toUpper :: rest.filter (fun x => x == '#' || x == 'b')⟩

/-- `normalizeMinorToken` (source lines 64-69): like `normalizeToken` but
lowercasing the letter, defaulting to "a" on an empty token (the source
has no leading empty-input guard here). -/
def normalizeMinorToken (n : String) : String :=
  let t := trimChars (firstSlashPart (asciiList n.data))
  match t with
  | [] => "a"
  | c :: rest => ⟨c.toLower :: rest.filter (fun x => x == '#' || x == 'b')⟩

/-- One pass of `pretty` (source lines 70-72).  The source performs four
sequential global replacements (`##`, then `bb`, then `#`, then `b`);
since `##`/`bb` pairing is greedy left-to-right within runs of a single
character and the replacement glyphs are outside the pattern alphabet,
this single left-to-right pass is equivalent. -/
def prettyList : List Char → List Char
  | '#' :: '#' :: rest => '𝄪' :: prettyList rest
  | 'b' :: 'b' :: rest => '𝄫' :: prettyList rest
  | '#' :: rest => '♯' :: prettyList rest
  | 'b' :: rest => '♭' :: prettyList rest
  | c :: rest => c :: prettyList rest
  | [] => []

/-- `pretty` (source lines 70-72): render `#`/`b` runs as glyphs. -/
def pretty (n : String) : String := ⟨prettyList n.data⟩

/-- Enharmonic preference `EnhPref` (source line 75). -/
inductive EnhPref where
  | auto
  | sharps
  | flats
deriving DecidableEq

/-- Mode selector, the `"major" | "minor"` union of the source. -/
inductive Mode where
  | major
  | minor
deriving DecidableEq

/-- `resolveEnharmonic` (source lines 78-89): a non-slash name passes
through; a slash name splits into trimmed halves, the half whose ascii
form contains `#` is the sharp candidate (the first half is tested; if it
has no sharp the second half is taken as the sharp candidate). -/
def resolveEnharmonic (raw : String) (posAcc : Int) (pref : EnhPref) : String :=
  if !(raw.data.contains '/') then raw
  else
    let aRaw := trimChars (firstSlashPart raw.data)
    let bRaw := trimChars (secondSlashPart raw.data)
    let aSharp := (asciiList aRaw).contains '#'
    let sharpName : String := if aSharp then ⟨aRaw⟩ else ⟨bRaw⟩
    let flatName : String := if aSharp then ⟨bRaw⟩ else ⟨aRaw⟩
    match pref with
    | .sharps => sharpName
    | .flats => flatName
    | .auto => if posAcc ≥ 0 then sharpName else flatName

/-- Key signature record `Sig` (source line 92).  `type = true` stands for
`"#"`, `false` for `"b"`.  `count = none` models the `NaN` produced when
the major name is absent from `MAJOR_SIG_COUNTS` (JS `Math.abs(undefined)`),
in which case the letter set is empty. -/
structure Sig where
  type : Bool
  count : Option Nat
  set : List String
deriving DecidableEq

/-- `signatureForMajorName` (source lines 94-100).  For an absent key the
JS code computes `type = "b"` (`undefined >= 0` is false), `count = NaN`
and an empty letter set. -/
def signatureForMajorName (majorName : String) : Sig :=
  let key := normalizeToken majorName
  match MAJOR_SIG_COUNTS key with
  | some c =>
      ⟨decide (c ≥ 0), some c.natAbs,
        (if c ≥ 0 then ORDER_SHARPS else ORDER_FLATS).take c.natAbs⟩
  | none => ⟨false, none, []⟩

/-- `applySignature` (source lines 101-106).  Note `sig.count === 0` is
false for the `NaN` count (`none`), but then the letter set is empty so
the letter still passes through unchanged. -/
def applySignature (letter : String) (sig : Sig) : String :=
  if sig.count = some 0 then letter
  else if sig.type && sig.set.contains letter then letter ++ "#"
  else if !sig.type && sig.set.contains letter then letter ++ "b"
  else letter

/-- JS `acc.replace("b", "")`: remove the first `'b'` only. -/
def removeFirstFlat : List Char → List Char
  | [] => []
  | 'b' :: rest => rest
  | c :: rest => c :: removeFirstFlat rest

/-- `raiseHalfStep` (source lines 107-112): remove one flat if any flat is
present, otherwise append one sharp.  On the empty string the JS code would
produce the junk string `"undefined#"`; that branch is unreachable for
engine inputs and is modelled literally. -/
def raiseHalfStep (spelled : String) : String :=
  match spelled.data with
  | [] => "undefined#"
  | L :: acc =>
      if acc.contains 'b' then ⟨L :: removeFirstFlat acc⟩
      else ⟨L :: (acc ++ ['#'])⟩

/-- `relativeMajorFromMinor` (source lines 114-120): three enharmonic
boundary pairs are resolved by preference; everything else goes through
`MINOR_REL_MAJOR`, defaulting to "C". -/
def relativeMajorFromMinor (minorName : String) (pref : EnhPref) : String :=
  let nm := normalizeMinorToken minorName
  if nm = "a#" ∨ nm = "bb" then (if pref = .flats then "Db" else "C#")
  else if nm = "d#" ∨ nm = "eb" then (if pref = .flats then "Gb" else "F#")
  else if nm = "g#" ∨ nm = "ab" then (if pref = .flats then "Cb" else "B")
  else (MINOR_REL_MAJOR nm).getD "C"

/-- The `LETTERS` array local to `buildScaleFromKeyName` (source line 126). -/
def LETTERS : List String := ["C", "D", "E", "F", "G", "A", "B"]

/-- JS `Array.prototype.indexOf`: index of the first occurrence, `-1` when
absent (also when the argument is the model of `undefined`). -/
def jsIndexOf : List String → String → Int
  | [], _ => -1
  | y :: ys, x =>
      if y = x then 0
      else
        let r := jsIndexOf ys x
        if r < 0 then -1 else r + 1

/-- JS array indexing with an `Int` index; `""` models the `undefined`
produced by an out-of-range access (unreachable for catalog inputs). -/
def jsGet (l : List String) (i : Int) : String :=
  if i < 0 then "" else l.getD i.toNat ""

/-- First character of a token as a one-character string, JS `t[0]`;
`""` models `undefined` on the empty string (unreachable here since the
normalizers always return a non-empty token). -/
def firstCharStr (s : String) : String :=
  match s.data with
  | [] => ""
  | c :: _ => ⟨[c]⟩

/-- JS `tonic[0].toUpperCase()` as a one-character string. -/
def upperFirstStr (s : String) : String :=
  match s.data with
  | [] => ""
  | c :: _ => ⟨[c.toUpper]⟩

/-- `buildScaleFromKeyName` (source lines 125-147).  JS `%` is the
truncated remainder, `Int.tmod`.  Major: walk the 7 letters from the
tonic's letter, apply the signature, override index 0 with the normalized
tonic.  Minor (harmonic): use the relative major's signature (note the
source passes the RAW tonic to `relativeMajorFromMinor`, which
re-normalizes it), override index 0 with the minor tonic's spelling, then
raise index 6 a half step. -/
def buildScaleFromKeyName (tonicRaw : String) (mode : Mode) (enhPref : EnhPref) :
    List String :=
  match mode with
  | .major =>
      let tonic := normalizeToken tonicRaw
      let sig := signatureForMajorName tonic
      let start := jsIndexOf LETTERS (firstCharStr tonic)
      let letters := (List.range 7).map (fun i => jsGet LETTERS ((start + (i : Int)).tmod 7))
      let scale := letters.map (fun L => applySignature L sig)
      scale.set 0 tonic
  | .minor =>
      let tonic := normalizeMinorToken tonicRaw
      let tonicLetter := upperFirstStr tonic
      let relMaj := relativeMajorFromMinor tonicRaw enhPref
      let sig := signatureForMajorName relMaj
      let start := jsIndexOf LETTERS tonicLetter
      let letters := (List.range 7).map (fun i => jsGet LETTERS ((start + (i : Int)).tmod 7))
      let scale := letters.map (fun L => applySignature L sig)
      let scale := scale.set 0 (tonicLetter ++ ⟨tonic.data.drop 1⟩)
      scale.set 6 (raiseHalfStep (scale.getD 6 ""))

/-- A chord: roman-numeral/quality label plus its tones (source objects
`{ rn, tones }`). -/
structure Chord where
  rn : String
  tones : List String
deriving DecidableEq

/-- `diatonicTriads` (source lines 150-153): degree i takes scale degrees
(i, i+2, i+4) mod 7; labels are fixed per mode.  `getD _ ""` models the
`undefined` a JS out-of-range label access would give for scales longer
than 7 (never produced by the engine). -/
def diatonicTriads (scale : List String) (mode : Mode) : List Chord :=
  let rn := if mode = .minor
    then ["i", "ii°", "III+", "iv", "V", "VI", "vii°"]
    else ["I", "ii", "iii", "IV", "V", "vi", "vii°"]
  scale.enum.map (fun p =>
    ⟨rn.getD p.1 "", [p.2, scale.getD ((p.1 + 2) % 7) "", scale.getD ((p.1 + 4) % 7) ""]⟩)

/-- `diatonicSevenths` (source lines 154-175): degree i takes scale
degrees (i, i+2, i+4, i+6) mod 7; the two label tables are literal. -/
def diatonicSevenths (scale : List String) (mode : Mode) : List Chord :=
  let pc := fun (i : Nat) => scale.getD (i % 7) ""
  if mode = .major then
    [ ⟨"Imaj7",  [pc 0, pc 2, pc 4, pc 6]⟩,
      ⟨"ii7",    [pc 1, pc 3, pc 5, pc 0]⟩,
      ⟨"iii7",   [pc 2, pc 4, pc 6, pc 1]⟩,
      ⟨"IVmaj7", [pc 3, pc 5, pc 0, pc 2]⟩,
      ⟨"V7",     [pc 4, pc 6, pc 1, pc 3]⟩,
      ⟨"vi7",    [pc 5, pc 0, pc 2, pc 4]⟩,
      ⟨"viiø7",  [pc 6, pc 1, pc 3, pc 5]⟩ ]
  else
    [ ⟨"i mMaj7",  [pc 0, pc 2, pc 4, pc 6]⟩,
      ⟨"iiø7",     [pc 1, pc 3, pc 5, pc 0]⟩,
      ⟨"III+maj7", [pc 2, pc 4, pc 6, pc 1]⟩,
      ⟨"iv7",      [pc 3, pc 5, pc 0, pc 2]⟩,
      ⟨"V7",       [pc 4, pc 6, pc 1, pc 3]⟩,
      ⟨"VImaj7",   [pc 5, pc 0, pc 2, pc 4]⟩,
      ⟨"vii°7",    [pc 6, pc 1, pc 3, pc 5]⟩ ]

/-- `spelledToMidi` (source lines 204-211).  `none` models the `NaN`
midi number produced when the first character of the normalized note is
not a natural letter (JS `NAT_PC[L]` undefined).  JS `%` is the truncated
remainder `Int.tmod`; the `+ 120` keeps the dividend non-negative for all
realistic accidental counts. -/
def spelledToMidi (note : String) (oct : Int) : Option Int :=
  let N := asciiNote (normalizeToken note)
  match N.data with
  | [] => none
  | L :: acc =>
      match NAT_PC L with
      | none => none
      | some base =>
          let sigma : Int := (acc.count '#' : Int) - (acc.count 'b' : Int)
          let pc := (base + sigma + 120).tmod 12
          some (12 * (oct + 1) + pc)

/-! Enumerations of the engine's closed input catalogs, used to quantify
the claims over exactly the inputs the program draws from. -/

/-- The three enharmonic preferences. -/
def allPrefs : List EnhPref := [.auto, .sharps, .flats]

/-- The two modes. -/
def allModes : List Mode := [.major, .minor]

/-- The 15 major key names of `MAJOR_SIG_COUNTS` (source lines 41-44). -/
def majorKeyNames : List String :=
  ["C", "G", "D", "A", "E", "B", "F#", "C#", "F", "Bb", "Eb", "Ab", "Db", "Gb", "Cb"]

/-- The raw minor names of the 12-entry circle catalog. -/
def catalogMinorNames : List String := POSITIONS.map Pos.minor

/-- A spelling's accidental run (everything after the letter) is
homogeneous: empty, one or two sharps, or one or two flats. -/
def homogeneousAcc (s : String) : Prop :=
  s.data.drop 1 ∈ ([[], ['#'], ['#', '#'], ['b'], ['b', 'b']] : List (List Char))

instance (s : String) : Decidable (homogeneousAcc s) := by
  unfold homogeneousAcc; infer_instance

/-- The spelling at index 6 of the harmonic-minor walk BEFORE the
half-step raise: the 7th natural letter from the tonic's letter with the
relative major's signature applied.  This mirrors the minor branch of
`buildScaleFromKeyName` (source lines 136-142) up to the point where
`raiseHalfStep` is applied. -/
def minorPreRaiseSeventh (tonicRaw : String) (p : EnhPref) : String :=
  applySignature
    (jsGet LETTERS
      ((jsIndexOf LETTERS (upperFirstStr (normalizeMinorToken tonicRaw)) + (6 : Int)).tmod 7))
    (signatureForMajorName (relativeMajorFromMinor tonicRaw p))

/-- Modelled from the spec (section 4.6): the pitch-class formula the spec
states for `spelledToMidi`, `(natural pitch class + #-count − b-count) mod 12`,
with the mathematical (always non-negative) remainder. -/
def specPitchClass (note : String) : Option Int :=
  match (asciiNote (normalizeToken note)).data with
  | [] => none
  | L :: acc =>
      (NAT_PC L).map (fun base => (base + ((acc.count '#' : Int) - (acc.count 'b' : Int))) % 12)

/-! Helper lemmas. -/

/-- A list of length 7 is literally a 7-element list. -/
theorem eq_of_length_seven {α : Type} (l : List α) (h : l.length = 7) :
    ∃ a b c d e f g, l = [a, b, c, d, e, f, g] := by
  obtain ⟨a, l, rfl⟩ := List.exists_of_length_succ _ h
  simp only [List.length_cons] at h
  obtain ⟨b, l, rfl⟩ := List.exists_of_length_succ _ (by omega : l.length = 5 + 1)
  simp only [List.length_cons] at h
  obtain ⟨c, l, rfl⟩ := List.exists_of_length_succ _ (by omega : l.length = 4 + 1)
  simp only [List.length_cons] at h
  obtain ⟨d, l, rfl⟩ := List.exists_of_length_succ _ (by omega : l.length = 3 + 1)
  simp only [List.length_cons] at h
  obtain ⟨e, l, rfl⟩ := List.exists_of_length_succ _ (by omega : l.length = 2 + 1)
  simp only [List.length_cons] at h
  obtain ⟨f, l, rfl⟩ := List.exists_of_length_succ _ (by omega : l.length = 1 + 1)
  simp only [List.length_cons] at h
  obtain ⟨g, l, rfl⟩ := List.exists_of_length_succ _ (by omega : l.length = 0 + 1)
  simp only [List.length_cons] at h
  have : l = [] := List.eq_nil_of_length_eq_zero (by omega)
  exact ⟨a, b, c, d, e, f, g, by rw [this]⟩

/-- `NAT_PC` only returns values in `[0, 11]`. -/
theorem NAT_PC_nonneg {c : Char} {b : Int} (h : NAT_PC c = some b) : 0 ≤ b ∧ b ≤ 11 := by
  unfold NAT_PC at h
  split_ifs at h <;> simp_all <;> omega

/-- The JS truncated remainder agrees with the mathematical remainder on
non-negative dividends. -/
theorem tmod_twelve_eq_emod {a : Int} (h : 0 ≤ a) : a.tmod 12 = a % 12 := by
  obtain ⟨n, rfl⟩ := Int.eq_ofNat_of_zero_le h
  rfl

/-- The midi formula of the source, rewritten with the spec's remainder:
for a note whose normalized form starts with a natural letter and carries
at most 120 flats, the source's `(x + 120)` truncated remainder equals the
spec's mathematical `mod 12`. -/
theorem spelledToMidi_formula (note : String) (oct : Int) (L : Char) (acc : List Char)
    (base : Int) (hN : (asciiNote (normalizeToken note)).data = L :: acc)
    (hL : NAT_PC L = some base) (hb : acc.count 'b' ≤ 120) :
    spelledToMidi note oct =
      some (12 * (oct + 1) +
        (base + ((acc.count '#' : Int) - (acc.count 'b' : Int))) % 12) := by
  have hbase := NAT_PC_nonneg hL
  simp only [spelledToMidi, hN, hL]
  have hnn : 0 ≤ base + ((acc.count '#' : Int) - (acc.count 'b' : Int)) + 120 := by
    have : (acc.count 'b' : Int) ≤ 120 := by exact_mod_cast hb
    omega
  rw [tmod_twelve_eq_emod hnn]
  have : (base + ((acc.count '#' : Int) - (acc.count 'b' : Int)) + 120) % 12 =
      (base + ((acc.count '#' : Int) - (acc.count 'b' : Int))) % 12 := by omega
  rw [this]

/-- Claim C1: for every major key name in the fixed 15-key signature
table and every preference, `buildScaleFromKeyName` in major mode returns
exactly 7 spellings; entry i's letter is the i-th natural letter cyclically
from the tonic's letter (hence all 7 letters are distinct); entries 1-6 are
their letter with the tonic's key signature applied; entry 0 is the
normalized tonic; and the C-major scale is [C, D, E, F, G, A, B] for every
preference. -/
theorem buildScale_major_catalog :
    (∀ t ∈ majorKeyNames, ∀ p ∈ allPrefs,
      (buildScaleFromKeyName t .major p).length = 7 ∧
      (buildScaleFromKeyName t .major p).getD 0 "" = normalizeToken t ∧
      (∀ i < 7,
        firstCharStr ((buildScaleFromKeyName t .major p).getD i "") =
          jsGet LETTERS
            ((jsIndexOf LETTERS (firstCharStr (normalizeToken t)) + (i : Int)).tmod 7)) ∧
      ((buildScaleFromKeyName t .major p).map firstCharStr).Nodup ∧
      (∀ i < 7, 1 ≤ i →
        (buildScaleFromKeyName t .major p).getD i "" =
          applySignature
            (jsGet LETTERS
              ((jsIndexOf LETTERS (firstCharStr (normalizeToken t)) + (i : Int)).tmod 7))
            (signatureForMajorName (normalizeToken t)))) ∧
    (∀ p ∈ allPrefs,
      buildScaleFromKeyName "C" .major p = ["C", "D", "E", "F", "G", "A", "B"]) := by
  decide

/-- Witness for C1 at concrete inputs. -/
theorem buildScale_major_catalog_witness :
    (buildScaleFromKeyName "Gb" .major .flats).length = 7 ∧
    buildScaleFromKeyName "C" .major .auto = ["C", "D", "E", "F", "G", "A", "B"] :=
  ⟨(buildScale_major_catalog.1 "Gb" (by decide) .flats (by decide)).1,
   buildScale_major_catalog.2 .auto (by decide)⟩

/-- Claim C2: for every minor tonic name in the circle catalog and every
preference, the harmonic-minor scale has 7 entries; entry 0 is the
normalized minor tonic's own spelling (uppercased letter plus its
accidentals); entries 1-5 are the natural letters walked from the tonic's
letter with the relative major's key signature applied; entry 6 is that
walk's 7th letter with the signature applied and then raised a half step
(and only index 6 is raised); and the A-harmonic-minor scale under the
auto preference is [A, B, C, D, E, F, G#]. -/
theorem buildScale_minor_catalog :
    (∀ m ∈ catalogMinorNames, ∀ p ∈ allPrefs,
      (buildScaleFromKeyName m .minor p).length = 7 ∧
      (buildScaleFromKeyName m .minor p).getD 0 "" =
        upperFirstStr (normalizeMinorToken m) ++
          String.mk ((normalizeMinorToken m).data.drop 1) ∧
      (∀ i < 6, 1 ≤ i →
        (buildScaleFromKeyName m .minor p).getD i "" =
          applySignature
            (jsGet LETTERS
              ((jsIndexOf LETTERS (upperFirstStr (normalizeMinorToken m)) + (i : Int)).tmod 7))
            (signatureForMajorName (relativeMajorFromMinor m p))) ∧
      (buildScaleFromKeyName m .minor p).getD 6 "" =
        raiseHalfStep (applySignature
          (jsGet LETTERS
            ((jsIndexOf LETTERS (upperFirstStr (normalizeMinorToken m)) + (6 : Int)).tmod 7))
          (signatureForMajorName (relativeMajorFromMinor m p)))) ∧
    buildScaleFromKeyName "a" .minor .auto = ["A", "B", "C", "D", "E", "F", "G#"] := by
  decide

/-- Witness for C2 at concrete inputs. -/
theorem buildScale_minor_catalog_witness :
    (buildScaleFromKeyName "a" .minor .auto).length = 7 ∧
    buildScaleFromKeyName "a" .minor .auto = ["A", "B", "C", "D", "E", "F", "G#"] :=
  ⟨(buildScale_minor_catalog.1 "a" (by decide) .auto (by decide)).1,
   buildScale_minor_catalog.2⟩

/-- Claim C3: for every 7-note scale and each mode, `diatonicTriads`
returns exactly 7 chords, chord i having tones at scale degrees
(i, i+2, i+4) mod 7, with label sequence I, ii, iii, IV, V, vi, vii° in
major and i, ii°, III+, iv, V, VI, vii° in harmonic minor; and
`diatonicSevenths` returns exactly 7 chords with tones at degrees
(i, i+2, i+4, i+6) mod 7 and the literal labels Imaj7, ii7, iii7, IVmaj7,
V7, vi7, viiø7 in major and i mMaj7, iiø7, III+maj7, iv7, V7, VImaj7,
vii°7 in harmonic minor. -/
theorem diatonicChords_spec (scale : List String) (mode : Mode) (h : scale.length = 7) :
    (diatonicTriads scale mode).length = 7 ∧
    (diatonicTriads scale mode).map Chord.rn =
      (if mode = .minor then ["i", "ii°", "III+", "iv", "V", "VI", "vii°"]
       else ["I", "ii", "iii", "IV", "V", "vi", "vii°"]) ∧
    (∀ i < 7, ((diatonicTriads scale mode).getD i ⟨"", []⟩).tones =
      [scale.getD i "", scale.getD ((i + 2) % 7) "", scale.getD ((i + 4) % 7) ""]) ∧
    (diatonicSevenths scale mode).length = 7 ∧
    (diatonicSevenths scale mode).map Chord.rn =
      (if mode = .minor then ["i mMaj7", "iiø7", "III+maj7", "iv7", "V7", "VImaj7", "vii°7"]
       else ["Imaj7", "ii7", "iii7", "IVmaj7", "V7", "vi7", "viiø7"]) ∧
    (∀ i < 7, ((diatonicSevenths scale mode).getD i ⟨"", []⟩).tones =
      [scale.getD i "", scale.getD ((i + 2) % 7) "", scale.getD ((i + 4) % 7) "",
       scale.getD ((i + 6) % 7) ""]) := by
  obtain ⟨a, b, c, d, e, f, g, rfl⟩ := eq_of_length_seven scale h
  cases mode <;>
    refine ⟨rfl, rfl, ?_, rfl, rfl, ?_⟩ <;>
    · intro i hi
      interval_cases i <;> rfl

/-- Witness for C3 at the C-major scale. -/
theorem diatonicChords_spec_witness :
    (diatonicTriads ["C", "D", "E", "F", "G", "A", "B"] Mode.major).map Chord.rn =
      ["I", "ii", "iii", "IV", "V", "vi", "vii°"] := by
  have h := diatonicChords_spec ["C", "D", "E", "F", "G", "A", "B"] Mode.major rfl
  simpa using h.2.1

/-- Claim C4: `resolveEnharmonic` is the identity on any slash-free name
for every position accidental and preference; on a slash name it returns,
of the two trimmed halves, the one whose ascii form carries a sharp mark
when the preference is sharps and the other half when the preference is
flats — whichever side of the slash the sharp-marked half is on — and
under auto it picks the sharp-marked half exactly when the position's
accidental count is non-negative. -/
theorem resolveEnharmonic_spec :
    (∀ (raw : String) (posAcc : Int) (pref : EnhPref),
      '/' ∉ raw.data → resolveEnharmonic raw posAcc pref = raw) ∧
    (∀ (raw : String) (posAcc : Int),
      '/' ∈ raw.data →
      (('#' ∈ asciiList (trimChars (firstSlashPart raw.data)) →
        resolveEnharmonic raw posAcc .sharps = String.mk (trimChars (firstSlashPart raw.data)) ∧
        resolveEnharmonic raw posAcc .flats = String.mk (trimChars (secondSlashPart raw.data)) ∧
        resolveEnharmonic raw posAcc .auto =
          (if posAcc ≥ 0 then String.mk (trimChars (firstSlashPart raw.data))
           else String.mk (trimChars (secondSlashPart raw.data)))) ∧
       ('#' ∉ asciiList (trimChars (firstSlashPart raw.data)) →
        '#' ∈ asciiList (trimChars (secondSlashPart raw.data)) →
        resolveEnharmonic raw posAcc .sharps = String.mk (trimChars (secondSlashPart raw.data)) ∧
        resolveEnharmonic raw posAcc .flats = String.mk (trimChars (firstSlashPart raw.data)) ∧
        resolveEnharmonic raw posAcc .auto =
          (if posAcc ≥ 0 then String.mk (trimChars (secondSlashPart raw.data))
           else String.mk (trimChars (firstSlashPart raw.data)))))) := by
  refine ⟨?_, ?_⟩
  · intro raw posAcc pref h
    simp [resolveEnharmonic, h]
  · intro raw posAcc h
    refine ⟨fun hA => ?_, fun hA hB => ?_⟩ <;>
      refine ⟨?_, ?_, ?_⟩ <;>
      simp [resolveEnharmonic, h, hA]

/-- Witness for C4 at the flat-first spoke name and a slash-free name. -/
theorem resolveEnharmonic_spec_witness :
    resolveEnharmonic "C" 0 .auto = "C" ∧
    resolveEnharmonic "Db / C#" (-5) .sharps = "C#" ∧
    resolveEnharmonic "Db / C#" (-5) .flats = "Db" := by
  refine ⟨resolveEnharmonic_spec.1 "C" 0 .auto (by decide), ?_, ?_⟩
  · exact ((resolveEnharmonic_spec.2 "Db / C#" (-5) (by decide)).2
      (by decide) (by decide)).1.trans (by decide)
  · exact (((resolveEnharmonic_spec.2 "Db / C#" (-5) (by decide)).2
      (by decide) (by decide)).2.1).trans (by decide)

/-- Claim C5: `relativeMajorFromMinor` resolves the three boundary minor
pairs by preference alone (a#/bb to Db under flats and C# otherwise,
d#/eb to Gb or F#, g#/ab to Cb or B), and every other minor tonic of the
fixed table maps to its table entry regardless of preference. -/
theorem relativeMajorFromMinor_spec :
    (∀ p ∈ allPrefs,
      relativeMajorFromMinor "a#" p = (if p = .flats then "Db" else "C#") ∧
      relativeMajorFromMinor "bb" p = (if p = .flats then "Db" else "C#") ∧
      relativeMajorFromMinor "d#" p = (if p = .flats then "Gb" else "F#") ∧
      relativeMajorFromMinor "eb" p = (if p = .flats then "Gb" else "F#") ∧
      relativeMajorFromMinor "g#" p = (if p = .flats then "Cb" else "B") ∧
      relativeMajorFromMinor "ab" p = (if p = .flats then "Cb" else "B")) ∧
    (∀ nm ∈ (["a", "e", "b", "f#", "c#", "d", "g", "c", "f"] : List String),
      ∀ p ∈ allPrefs,
        relativeMajorFromMinor nm p = (MINOR_REL_MAJOR nm).getD "C") := by
  decide

/-- Witness for C5 at concrete inputs. -/
theorem relativeMajorFromMinor_spec_witness :
    relativeMajorFromMinor "a#" .flats = "Db" ∧
    relativeMajorFromMinor "a" .auto = "C" :=
  ⟨((relativeMajorFromMinor_spec.1 .flats (by decide)).1).trans (by decide),
   (relativeMajorFromMinor_spec.2 "a" (by decide) .auto (by decide)).trans (by decide)⟩

/-- Claim C6: `spelledToMidi` computes `12*(octave+1) +
((natural pitch class + #-count − b-count) mod 12)` (for any note whose
normalized form starts with a natural letter, with the source's `+ 120`
guard covering up to 120 flat marks), and is therefore invariant under
enharmonic respelling at a fixed octave: two such spellings with the same
letter-plus-offset pitch class mod 12 get the same MIDI number, e.g.
C#4 and Db4. -/
theorem spelledToMidi_spec :
    (∀ (note : String) (oct : Int) (L : Char) (acc : List Char) (base : Int),
      (asciiNote (normalizeToken note)).data = L :: acc →
      NAT_PC L = some base →
      acc.count 'b' ≤ 120 →
      spelledToMidi note oct =
        some (12 * (oct + 1) +
          (base + ((acc.count '#' : Int) - (acc.count 'b' : Int))) % 12)) ∧
    (∀ (n1 n2 : String) (oct : Int) (L1 L2 : Char) (acc1 acc2 : List Char) (b1 b2 : Int),
      (asciiNote (normalizeToken n1)).data = L1 :: acc1 →
      (asciiNote (normalizeToken n2)).data = L2 :: acc2 →
      NAT_PC L1 = some b1 → NAT_PC L2 = some b2 →
      acc1.count 'b' ≤ 120 → acc2.count 'b' ≤ 120 →
      specPitchClass n1 = specPitchClass n2 →
      spelledToMidi n1 oct = spelledToMidi n2 oct) := by
  refine ⟨spelledToMidi_formula, ?_⟩
  intro n1 n2 oct L1 L2 acc1 acc2 b1 b2 h1 h2 hL1 hL2 hb1 hb2 hpc
  rw [spelledToMidi_formula n1 oct L1 acc1 b1 h1 hL1 hb1,
      spelledToMidi_formula n2 oct L2 acc2 b2 h2 hL2 hb2]
  unfold specPitchClass at hpc
  rw [h1, h2] at hpc
  simp [hL1, hL2] at hpc
  rw [hpc]

/-- Witness for C6: C#4 and Db4 agree (both are MIDI 61). -/
theorem spelledToMidi_spec_witness :
    spelledToMidi "C#" 4 = spelledToMidi "Db" 4 ∧ spelledToMidi "Db" 4 = some 61 :=
  ⟨spelledToMidi_spec.2 "C#" "Db" 4 'C' 'D' ['#'] ['b'] 0 2
      (by decide) (by decide) (by decide) (by decide) (by decide) (by decide) (by decide),
   by decide⟩

/-- Claim C7: every spelling the engine produces on catalog inputs has a
homogeneous accidental run ('' / '#' / '##' / 'b' / 'bb'): `applySignature`
on a natural letter under any of the 15 catalog signatures, `raiseHalfStep`
on any such spelling, and every element of every scale built from the 12
circle positions under either mode and any preference. -/
theorem homogeneous_spellings :
    (∀ L ∈ LETTERS, ∀ k ∈ majorKeyNames,
      homogeneousAcc (applySignature L (signatureForMajorName k)) ∧
      homogeneousAcc (raiseHalfStep (applySignature L (signatureForMajorName k)))) ∧
    (∀ pos ∈ POSITIONS, ∀ mode ∈ allModes, ∀ p ∈ allPrefs,
      ∀ s ∈ buildScaleFromKeyName
        (resolveEnharmonic (if mode = .major then pos.major else pos.minor) pos.acc p)
        mode p,
      homogeneousAcc s) := by
  decide

/-- Witness for C7 at concrete inputs. -/
theorem homogeneous_spellings_witness :
    homogeneousAcc (applySignature "F" (signatureForMajorName "C#")) ∧
    homogeneousAcc (raiseHalfStep (applySignature "F" (signatureForMajorName "C#"))) :=
  homogeneous_spellings.1 "F" (by decide) "C#" (by decide)

/-- Claim C8: `raiseHalfStep` is never fed a double sharp on any reachable
harmonic-minor computation: `applySignature` adds at most one mark to a
bare letter, and for every resolved minor tonic of the 12-position catalog
and every preference the pre-raise spelling at index 6 carries at most one
accidental mark; index 6 of the built scale is exactly `raiseHalfStep` of
that at-most-singly-marked spelling. -/
theorem raiseHalfStep_never_double_sharp :
    (∀ L ∈ LETTERS, ∀ k ∈ majorKeyNames,
      ((applySignature L (signatureForMajorName k)).data.drop 1).length ≤ 1) ∧
    (∀ pos ∈ POSITIONS, ∀ p ∈ allPrefs,
      ((minorPreRaiseSeventh (resolveEnharmonic pos.minor pos.acc p) p).data.drop 1).length ≤ 1 ∧
      (buildScaleFromKeyName (resolveEnharmonic pos.minor pos.acc p) .minor p).getD 6 "" =
        raiseHalfStep (minorPreRaiseSeventh (resolveEnharmonic pos.minor pos.acc p) p)) := by
  decide

/-- Witness for C8 at the A-minor position. -/
theorem raiseHalfStep_never_double_sharp_witness :
    ((applySignature "G" (signatureForMajorName "C")).data.drop 1).length ≤ 1 :=
  raiseHalfStep_never_double_sharp.1 "G" (by decide) "C" (by decide)

/-- Claim C9 counterexample: the round trip
`render (normalizeMajorToken (render s))` does NOT reproduce an
accidental-bearing canonical spelling literally — it lands on the glyph
rendering instead, already for `s = "C#"`. -/
theorem render_roundtrip_counterexample :
    pretty (normalizeToken (pretty "C#")) ≠ "C#" := by decide

/-- Claim C9 (amended): for every reachable canonical spelling s (an A-G
letter with accidental run '', '#', '##', 'b' or 'bb'),
`normalizeMajorToken (render s) = s`; consequently the round trip
`render (normalizeMajorToken (render s))` reproduces `render s`, the
rendering of `s`. -/
theorem render_roundtrip :
    ∀ L ∈ (["A", "B", "C", "D", "E", "F", "G"] : List String),
      ∀ a ∈ (["", "#", "##", "b", "bb"] : List String),
        normalizeToken (pretty (L ++ a)) = L ++ a ∧
        pretty (normalizeToken (pretty (L ++ a))) = pretty (L ++ a) := by
  decide

/-- Witness for the amended C9 at a double sharp. -/
theorem render_roundtrip_witness :
    normalizeToken (pretty ("F" ++ "##")) = "F" ++ "##" :=
  (render_roundtrip "F" (by decide) "##" (by decide)).1

/-- Claim C10: `relativeMajorFromMinor` is total: on any input string
whose normalized minor token is neither one of the six special-cased
boundary names nor a key of the minor-to-relative-major table, it falls
back to "C". -/
theorem relativeMajorFromMinor_total_fallback :
    ∀ (s : String) (p : EnhPref),
      normalizeMinorToken s ∉ (["a#", "bb", "d#", "eb", "g#", "ab"] : List String) →
      MINOR_REL_MAJOR (normalizeMinorToken s) = none →
      relativeMajorFromMinor s p = "C" := by
  intro s p h1 h2
  simp only [List.mem_cons, List.not_mem_nil, or_false, not_or] at h1
  obtain ⟨n1, n2, n3, n4, n5, n6⟩ := h1
  simp [relativeMajorFromMinor, n1, n2, n3, n4, n5, n6, h2]

/-- Witness for C10 at the out-of-catalog token "x". -/
theorem relativeMajorFromMinor_total_fallback_witness :
    relativeMajorFromMinor "x" .auto = "C" :=
  relativeMajorFromMinor_total_fallback "x" .auto (by decide) (by decide)

end CircleOfFifths
